import Mathlib

/-!
Verification of the kyutai_transcription live-transcription bridge.

This file shallowly embeds the parts of the repository needed to settle the
claims: the pure audio DSP functions (`ex_app/lib/audio/processing.py`), the
Modal STT protocol parser (`ex_app/lib/protocols/modal.py`), the transcriber
result pipeline (`ex_app/lib/transcriber.py` together with
`SpreedClient._consume_transcriber_results`), and a state-machine model of
`SpreedClient` (`ex_app/lib/spreed_client.py`).

Modelling conventions:
* numpy `int16` buffers are `List Int`; the int16 range is carried as a
  hypothesis where a claim needs it.
* float64/float32 sample values are modelled as exact rationals.  Every
  float operation embedded here is exact at the inputs the claims quantify
  over (divisions and multiplications by the power of two 32768 on 16-bit
  integers, and means of two 16-bit integers), so `ℚ` is a faithful model;
  each definition's comment notes the exactness argument.
* Python's `int()` / numpy's `astype` on a float value truncate toward
  zero; `ratTrunc` below is that conversion.
* fallible Python functions return `Except PyError`.
-/

/-- Python exceptions raised by the embedded code. -/
inductive PyError where
  /-- Python ValueError, as raised by the audio DSP functions. -/
  | valueError (msg : String)
  /-- Python AttributeError, as raised by calling `.get` on a non-dict. -/
  | attributeError
  deriving Repr, DecidableEq

/-- Truncation of an exact real (rational) value toward zero: the semantics
of CPython's `int(float)` and of numpy's `astype` from a float dtype to an
integer dtype (C cast).  Floor for non-negative values, ceiling for negative
ones. -/
def ratTrunc (q : ℚ) : Int := if q < 0 then ⌈q⌉ else ⌊q⌋

theorem ratTrunc_intCast (n : Int) : ratTrunc (n : ℚ) = n := by
  unfold ratTrunc
  split <;> simp

/-- Truncation `ratTrunc` of `n / d` (`d` a positive natural) is t-division. -/
theorem ratTrunc_intCast_div_natCast (n : Int) (d : Nat) (hd : 0 < d) :
    ratTrunc ((n : ℚ) / (d : ℚ)) = n.tdiv d := by
  have hd0 : (0 : ℚ) < (d : ℚ) := by exact_mod_cast hd
  unfold ratTrunc
  rcases n with k | k
  · have hn : (0 : ℚ) ≤ (Int.ofNat k : ℚ) / (d : ℚ) := by
      apply div_nonneg _ hd0.le
      have : (0 : Int) ≤ Int.ofNat k := Int.ofNat_zero_le k
      exact_mod_cast this
    rw [if_neg (not_lt.2 hn), Rat.floor_intCast_div_natCast]
    rfl
  · have hneg : (Int.negSucc k : ℚ) / (d : ℚ) < 0 := by
      apply div_neg_of_neg_of_pos _ hd0
      exact_mod_cast Int.negSucc_lt_zero k
    rw [if_pos hneg]
    have hceil : ⌈(Int.negSucc k : ℚ) / (d : ℚ)⌉ = -⌊-((Int.negSucc k : ℚ) / (d : ℚ))⌋ := by
      rw [Int.floor_neg, neg_neg]
    rw [hceil]
    have h1 : (-((Int.negSucc k : ℚ) / (d : ℚ))) = ((Int.ofNat (k + 1) : Int) : ℚ) / (d : ℚ) := by
      rw [← neg_div]
      push_cast [Int.negSucc_eq, Int.ofNat_eq_natCast]
      ring
    rw [h1, Rat.floor_intCast_div_natCast]
    have h2 : (Int.ofNat (k + 1) : Int) / (d : Int) = Int.ofNat ((k + 1) / d) := rfl
    rw [h2]
    rfl

/-- Truncation of a value between a nonpositive and a nonnegative integer
bound stays between the bounds. -/
theorem ratTrunc_mem (q : ℚ) (a b : Int) (ha : a ≤ 0) (hb : 0 ≤ b)
    (h1 : (a : ℚ) ≤ q) (h2 : q ≤ (b : ℚ)) :
    a ≤ ratTrunc q ∧ ratTrunc q ≤ b := by
  unfold ratTrunc
  split
  · rename_i hq
    refine ⟨?_, ?_⟩
    · calc a = ⌈((a : Int) : ℚ)⌉ := (Int.ceil_intCast a).symm
        _ ≤ ⌈q⌉ := Int.ceil_le_ceil h1
    · calc ⌈q⌉ ≤ ⌈(0 : ℚ)⌉ := Int.ceil_le_ceil hq.le
        _ = 0 := by simp
        _ ≤ b := hb
  · rename_i hq
    push_neg at hq
    refine ⟨?_, ?_⟩
    · calc a ≤ 0 := ha
        _ = ⌊(0 : ℚ)⌋ := by simp
        _ ≤ ⌊q⌋ := Int.floor_le_floor hq
    · calc ⌊q⌋ ≤ ⌊((b : Int) : ℚ)⌋ := Int.floor_le_floor h2
        _ = b := Int.floor_intCast b

/-! ## Audio DSP (`ex_app/lib/audio/processing.py`) -/

/-- Embedding of `audio.reshape(-1, 2)` on an even-length interleaved buffer: the list of
consecutive (left, right) pairs. -/
def reshapePairs : List Int → List (Int × Int)
  | a :: b :: rest => (a, b) :: reshapePairs rest
  | _ => []

/-- One element of `stereo_pairs.mean(axis=1).astype(np.int16)`: numpy takes
the mean of the two int16 values in float64 — exact, since `|l + r| ≤ 2^17`
and halving is exact in binary floating point — and the cast back to int16
truncates toward zero.  No overflow or wraparound is possible because the
mean of two int16 values lies in `[-32768, 32767.5]`. -/
def npPairMeanInt16 (l r : Int) : Int := ratTrunc (((l : ℚ) + (r : ℚ)) / 2)

/-- Embedding of `stereo_to_mono(audio)` from `ex_app/lib/audio/processing.py`:
empty input is returned as is; an odd number of samples raises `ValueError`;
otherwise interleaved pairs are averaged channel-wise. -/
def stereo_to_mono (audio : List Int) : Except PyError (List Int) :=
  if audio.length = 0 then .ok audio
  else if audio.length % 2 ≠ 0 then
    .error (.valueError "Stereo audio must have even number of samples")
  else .ok ((reshapePairs audio).map fun p => npPairMeanInt16 p.1 p.2)

/-- A numpy array with the two dtypes the repository's audio path uses.
Float32 samples are modelled by their exact rational values. -/
inductive NpArray where
  | i16 (xs : List Int)
  | f32 (xs : List ℚ)
  deriving Repr, DecidableEq

/-- Python `len(arr)`. -/
def NpArray.size : NpArray → Nat
  | .i16 xs => xs.length
  | .f32 xs => xs.length

/-- Embedding of `resample(audio, source_rate, target_rate)` from
`ex_app/lib/audio/processing.py`.  `scipy.signal.resample(x, num)` is an
external FFT-based routine whose only property used by the code (and the
claims) is that it returns exactly `num` float64 samples; it is passed in
here as the parameter `sig`.  `num_samples = int(len(audio) * target_rate /
source_rate)` truncates the (positive, because the rates were checked)
quotient toward zero, which is floor — `Nat` division.  On int16 input the
float result is clamped with `np.clip(·, -32768, 32767)` and cast back with
`astype(np.int16)` (truncation toward zero). -/
def resample (sig : List ℚ → Nat → List ℚ) (audio : NpArray)
    (source_rate target_rate : Int) : Except PyError NpArray :=
  if source_rate ≤ 0 ∨ target_rate ≤ 0 then
    .error (.valueError "Sample rates must be positive")
  else if source_rate = target_rate then .ok audio
  else if audio.size = 0 then .ok audio
  else
    let num_samples := audio.size * target_rate.toNat / source_rate.toNat
    match audio with
    | .i16 xs =>
        .ok (.i16 ((sig (xs.map (fun x => (x : ℚ))) num_samples).map
          fun q => ratTrunc (min (max q (-32768)) 32767)))
    | .f32 xs => .ok (.f32 (sig xs num_samples))

/-- Embedding of `int16_to_float32(audio)`: divide by 32768.0.  Exact in float32: every
int16 value has at most 16 significant bits (< the 24-bit mantissa) and the
divisor is a power of two. -/
def int16_to_float32 (audio : List Int) : List ℚ :=
  audio.map fun x : Int => (x : ℚ) / 32768

/-- Embedding of `float32_to_int16(audio)`: multiply by 32768.0 (exact: a power of two),
clamp with `np.clip(·, -32768, 32767)`, cast with `astype(np.int16)`
(truncation toward zero). -/
def float32_to_int16 (audio : List ℚ) : List Int :=
  audio.map fun q => ratTrunc (min (max (q * 32768) (-32768)) 32767)

/-! ### Audio DSP lemmas -/

theorem reshapePairs_length : ∀ l : List Int, (reshapePairs l).length = l.length / 2
  | [] => rfl
  | [_] => by simp [reshapePairs]
  | a :: b :: rest => by
      show (reshapePairs rest).length + 1 = (rest.length + 1 + 1) / 2
      rw [reshapePairs_length rest]
      omega

theorem reshapePairs_getD : ∀ (l : List Int) (i : Nat), i < (reshapePairs l).length →
    (reshapePairs l).getD i (0, 0) = (l.getD (2 * i) 0, l.getD (2 * i + 1) 0)
  | a :: b :: rest, 0, _ => by simp [reshapePairs]
  | a :: b :: rest, i + 1, h => by
      have h' : i < (reshapePairs rest).length := by
        simpa [reshapePairs] using h
      have hrec := reshapePairs_getD rest i h'
      show (reshapePairs rest).getD i (0, 0) = _
      rw [hrec]
      have e1 : 2 * (i + 1) = (2 * i) + 1 + 1 := by omega
      rw [e1]
      simp

/-- The float64 mean of an int16 pair, cast back to int16, is t-division
(truncation toward zero) of the sum by two. -/
theorem npPairMeanInt16_eq_tdiv (l r : Int) : npPairMeanInt16 l r = (l + r).tdiv 2 := by
  unfold npPairMeanInt16
  have hcast : ((l : ℚ) + (r : ℚ)) / 2 = ((l + r : Int) : ℚ) / ((2 : ℕ) : ℚ) := by
    push_cast
    ring
  rw [hcast, ratTrunc_intCast_div_natCast (l + r) 2 (by norm_num)]
  norm_num

theorem getD_map_pairFn (f : Int × Int → Int) : ∀ (l : List (Int × Int)) (i : Nat),
    i < l.length → (l.map f).getD i 0 = f (l.getD i (0, 0))
  | _ :: _, 0, _ => rfl
  | _ :: xs, i + 1, h => by
      simpa using getD_map_pairFn f xs i (by simpa using h)

/-- C7 counterexample: the claim reads `(buf[2i] + buf[2i+1]) / 2` "under
integer arithmetic", i.e. Python floor division.  On the pair `(-1, -2)` the
code produces `-1` (float64 mean `-1.5` cast to int16 truncates toward
zero), while floor division gives `-2`. -/
theorem stereo_to_mono_floordiv_counterexample :
    stereo_to_mono [-1, -2] = .ok [-1] ∧
    Int.fdiv ((-1) + (-2)) 2 = -2 ∧ ¬((-1 : Int) = -2) := by
  refine ⟨?_, by decide, by decide⟩
  have h : npPairMeanInt16 (-1) (-2) = -1 := by
    rw [npPairMeanInt16_eq_tdiv]
    decide
  simp [stereo_to_mono, reshapePairs, h]

/-- C7 (amended): on an even-length int16 buffer, `stereo_to_mono` returns a
buffer of half the length whose element `i` is `(buf[2i] + buf[2i+1])`
divided by 2 rounding toward zero (`Int.tdiv`, equal to floor division for
non-negative sums); on an odd-length buffer it raises `ValueError`. -/
theorem stereo_to_mono_spec (audio : List Int) :
    (audio.length % 2 = 1 →
      stereo_to_mono audio =
        .error (.valueError "Stereo audio must have even number of samples")) ∧
    (audio.length % 2 = 0 →
      ∃ m, stereo_to_mono audio = .ok m ∧ m.length = audio.length / 2 ∧
        ∀ i, i < m.length →
          m.getD i 0 = ((audio.getD (2 * i) 0) + (audio.getD (2 * i + 1) 0)).tdiv 2) := by
  constructor
  · intro hodd
    have hne : audio.length ≠ 0 := by omega
    simp only [stereo_to_mono, if_neg hne]
    rw [if_pos (by omega)]
  · intro heven
    by_cases hz : audio.length = 0
    · refine ⟨audio, ?_, by omega, ?_⟩
      · simp [stereo_to_mono, hz]
      · intro i hi
        have : audio.length = 0 := hz
        omega
    · refine ⟨(reshapePairs audio).map fun p => npPairMeanInt16 p.1 p.2, ?_, ?_, ?_⟩
      · simp only [stereo_to_mono, if_neg hz]
        rw [if_neg (by omega)]
      · rw [List.length_map, reshapePairs_length]
      · intro i hi
        rw [List.length_map] at hi
        rw [getD_map_pairFn _ _ _ hi, reshapePairs_getD audio i hi]
        exact npPairMeanInt16_eq_tdiv _ _

/-- Witness for `stereo_to_mono_spec` at a concrete even-length buffer. -/
theorem stereo_to_mono_spec_witness :
    ∃ m, stereo_to_mono [10, 20, 30, 40] = .ok m ∧ m.length = 2 ∧
      ∀ i, i < m.length →
        m.getD i 0 = ((([10, 20, 30, 40] : List Int).getD (2 * i) 0) +
          (([10, 20, 30, 40] : List Int).getD (2 * i + 1) 0)).tdiv 2 :=
  (stereo_to_mono_spec [10, 20, 30, 40]).2 (by decide)

/-- A concrete stand-in for `scipy.signal.resample`, used only to
instantiate theorems that are parametric in the resampling routine: it
returns the requested number of samples. -/
def sigModel (x : List ℚ) (n : Nat) : List ℚ := (x ++ List.replicate n 0).take n

theorem sigModel_length (x : List ℚ) (n : Nat) : (sigModel x n).length = n := by
  simp [sigModel]

/-- C6 (amended): for any resampling routine returning the requested number
of samples, `resample` fails on a non-positive rate, is the identity when
the rates agree or the input is empty, returns
`⌊len(audio) * target_rate / source_rate⌋` samples (truncation, not
`round`), preserves the dtype, and clamps int16 output to the int16
range. -/
theorem resample_spec (sig : List ℚ → Nat → List ℚ)
    (hsig : ∀ x n, (sig x n).length = n)
    (audio : NpArray) (source_rate target_rate : Int) :
    (source_rate ≤ 0 ∨ target_rate ≤ 0 →
      resample sig audio source_rate target_rate =
        .error (.valueError "Sample rates must be positive")) ∧
    (0 < source_rate → 0 < target_rate →
      (source_rate = target_rate →
        resample sig audio source_rate target_rate = .ok audio) ∧
      (audio.size = 0 → resample sig audio source_rate target_rate = .ok audio) ∧
      ∀ out, resample sig audio source_rate target_rate = .ok out →
        out.size = audio.size * target_rate.toNat / source_rate.toNat ∧
        ∀ xs, audio = .i16 xs → (∀ x ∈ xs, -32768 ≤ x ∧ x ≤ 32767) →
          ∃ ys, out = .i16 ys ∧ ∀ y ∈ ys, -32768 ≤ y ∧ y ≤ 32767) := by
  have hclamp : ∀ q : ℚ, -32768 ≤ ratTrunc (min (max q (-32768)) 32767) ∧
      ratTrunc (min (max q (-32768)) 32767) ≤ 32767 := by
    intro q
    refine ratTrunc_mem (min (max q (-32768)) 32767) (-32768) 32767
      (by norm_num) (by norm_num) ?_ ?_
    · push_cast
      exact le_min (le_max_right q (-32768)) (by norm_num)
    · push_cast
      exact min_le_right _ _
  constructor
  · intro hbad
    simp [resample, hbad]
  · intro hs ht
    have hbad : ¬(source_rate ≤ 0 ∨ target_rate ≤ 0) := by omega
    have hspos : 0 < source_rate.toNat := by omega
    refine ⟨?_, ?_, ?_⟩
    · intro heq
      simp [resample, hbad, heq, hs, ht]
    · intro hz
      by_cases heq : source_rate = target_rate
      · simp [resample, hbad, heq, hs, ht]
      · simp [resample, hbad, heq, hz, hs, ht]
    · intro out hout
      by_cases heq : source_rate = target_rate
      · rw [show resample sig audio source_rate target_rate = .ok audio by
            simp [resample, hbad, heq, hs, ht]] at hout
        cases hout
        subst heq
        refine ⟨?_, ?_⟩
        · rw [Nat.mul_div_cancel audio.size hspos]
        · intro xs hxs hrange
          exact ⟨xs, hxs, hrange⟩
      · by_cases hz : audio.size = 0
        · rw [show resample sig audio source_rate target_rate = .ok audio by
              simp [resample, hbad, heq, hz, hs, ht]] at hout
          cases hout
          refine ⟨by rw [hz]; simp, ?_⟩
          intro xs hxs hrange
          exact ⟨xs, hxs, hrange⟩
        · cases audio with
          | i16 xs =>
              have hres : resample sig (.i16 xs) source_rate target_rate =
                  .ok (.i16 ((sig (xs.map (fun x => (x : ℚ)))
                    ((NpArray.i16 xs).size * target_rate.toNat / source_rate.toNat)).map
                      fun q => ratTrunc (min (max q (-32768)) 32767))) := by
                simp [resample, hbad, heq, hz, hs, ht]
              rw [hres] at hout
              cases hout
              refine ⟨by simp [NpArray.size, hsig], ?_⟩
              intro xs' hxs' _
              cases hxs'
              refine ⟨_, rfl, ?_⟩
              intro y hy
              rw [List.mem_map] at hy
              obtain ⟨q, _, hq⟩ := hy
              rw [← hq]
              exact hclamp q
          | f32 xs =>
              have hres : resample sig (.f32 xs) source_rate target_rate =
                  .ok (.f32 (sig xs
                    ((NpArray.f32 xs).size * target_rate.toNat / source_rate.toNat))) := by
                simp [resample, hbad, heq, hz, hs, ht]
              rw [hres] at hout
              cases hout
              refine ⟨by simp [NpArray.size, hsig], ?_⟩
              intro xs' hxs' hrange
              cases hxs'

/-- Witness for `resample_spec`: equal rates are the identity on a
concrete int16 buffer. -/
theorem resample_spec_witness :
    resample sigModel (NpArray.i16 [1, 2, 3, 4]) 24000 24000 =
      .ok (NpArray.i16 [1, 2, 3, 4]) :=
  ((resample_spec sigModel sigModel_length (NpArray.i16 [1, 2, 3, 4])
    24000 24000).2 (by decide) (by decide)).1 rfl

/-- C6 counterexample: the claim's output length `round(len * dst / src)`
fails on a one-sample buffer resampled from rate 3 to rate 2: the code
computes `int(1 * 2 / 3) = 0` samples while `round(1 * 2 / 3) = 1`. -/
theorem resample_round_counterexample :
    resample sigModel (NpArray.f32 [5]) 3 2 = .ok (NpArray.f32 []) ∧
    round ((1 * 2 : ℚ) / 3) = 1 ∧ (NpArray.f32 ([] : List ℚ)).size ≠ 1 := by
  refine ⟨?_, ?_, by simp [NpArray.size]⟩
  · have h : resample sigModel (NpArray.f32 [5]) 3 2 =
        .ok (.f32 (sigModel [5] ((NpArray.f32 [5]).size * (2 : Int).toNat / (3 : Int).toNat))) := by
      simp [resample, NpArray.size]
    rw [h]
    have h2 : (NpArray.f32 [5]).size * (2 : Int).toNat / (3 : Int).toNat = 0 := by
      simp [NpArray.size]
    rw [h2]
    rfl
  · have h1 : ((1 * 2 : ℚ) / 3) = 2 / 3 := by norm_num
    rw [h1, round_eq]
    have h2 : (2 / 3 + 1 / 2 : ℚ) = 7 / 6 := by norm_num
    rw [h2]
    rw [Int.floor_eq_iff]
    norm_num

/-- Elementwise round trip: dividing an in-range int16 value by 32768,
multiplying back, clamping and truncating returns the value. -/
theorem int16_roundtrip_elem (x : Int) (h1 : -32768 ≤ x) (h2 : x ≤ 32767) :
    ratTrunc (min (max ((x : ℚ) / 32768 * 32768) (-32768)) 32767) = x := by
  have hmul : ((x : ℚ) / 32768 * 32768) = (x : ℚ) :=
    div_mul_cancel₀ _ (by norm_num)
  rw [hmul]
  have hmax : max ((x : ℚ)) (-32768) = (x : ℚ) :=
    max_eq_left (by exact_mod_cast h1)
  rw [hmax]
  have hmin : min ((x : ℚ)) (32767 : ℚ) = (x : ℚ) :=
    min_eq_left (by exact_mod_cast h2)
  rw [hmin, ratTrunc_intCast]

/-- C8: `float32_to_int16` after `int16_to_float32` is the identity on
buffers of int16 values (all float operations involved are exact, see the
definitions). -/
theorem int16_float32_roundtrip (audio : List Int)
    (h : ∀ x ∈ audio, -32768 ≤ x ∧ x ≤ 32767) :
    float32_to_int16 (int16_to_float32 audio) = audio := by
  induction audio with
  | nil => rfl
  | cons x xs ih =>
      have hx := h x (by simp)
      have hxs : ∀ y ∈ xs, -32768 ≤ y ∧ y ≤ 32767 := fun y hy => h y (by simp [hy])
      show (float32_to_int16 (int16_to_float32 (x :: xs))) = x :: xs
      simp only [int16_to_float32, float32_to_int16, List.map_cons] at ih ⊢
      rw [int16_roundtrip_elem x hx.1 hx.2]
      exact congrArg (x :: ·) (ih hxs)

/-- Witness for `int16_float32_roundtrip` on a concrete buffer including
the extreme int16 values. -/
theorem int16_float32_roundtrip_witness :
    float32_to_int16 (int16_to_float32 [-32768, -1, 0, 1, 32767]) =
      [-32768, -1, 0, 1, 32767] :=
  int16_float32_roundtrip [-32768, -1, 0, 1, 32767] (by decide)

/-! ## JSON (model of Python's `json.loads`, used by
`ex_app/lib/protocols/modal.py`) -/

/-- JSON values as produced by Python's `json.loads`.  Numbers are kept as
`mantissa * 10 ^ exp10` without normalisation (no claim compares numeric
values, so `1` vs `1.0` equality is not modelled).  `nan`/`inf` cover the
non-standard `NaN`/`Infinity` literals CPython's decoder accepts. -/
inductive Json where
  | null
  | bool (b : Bool)
  | num (mantissa : Int) (exp10 : Int)
  | str (s : String)
  | arr (xs : List Json)
  | obj (fields : List (String × Json))
  | nan
  | inf (negative : Bool)

/-- The four whitespace characters `json.loads` skips. -/
def jsonWs (c : Char) : Bool := c = ' ' || c = '\t' || c = '\n' || c = '\r'

def skipJsonWs (cs : List Char) : List Char := cs.dropWhile jsonWs

def hexVal (c : Char) : Option Nat :=
  if '0' ≤ c ∧ c ≤ '9' then some (c.toNat - 48)
  else if 'a' ≤ c ∧ c ≤ 'f' then some (c.toNat - 97 + 10)
  else if 'A' ≤ c ∧ c ≤ 'F' then some (c.toNat - 65 + 10)
  else none

def escChar (c : Char) : Option Char :=
  if c = '"' then some '"'
  else if c = '\\' then some '\\'
  else if c = '/' then some '/'
  else if c = 'b' then some (Char.ofNat 8)
  else if c = 'f' then some (Char.ofNat 12)
  else if c = 'n' then some '\n'
  else if c = 'r' then some '\r'
  else if c = 't' then some '\t'
  else none

def strCons (c : Char) (s : String) : String := ⟨c :: s.data⟩

/-- Body of a JSON string, after the opening quote.  Surrogate-pair
combination for `\u` escapes is not modelled (no claim exercises it).
The fuel argument only forces structural recursion; `fuel ≥ length` always
suffices since every step consumes at least one character. -/
def parseJsonStrBody : Nat → List Char → Option (String × List Char)
  | 0, _ => none
  | _, [] => none
  | fuel + 1, c :: rest =>
    if c = '"' then some ("", rest)
    else if c = '\\' then
      match rest with
      | [] => none
      | e :: rest2 =>
        if e = 'u' then
          match rest2 with
          | h1 :: h2 :: h3 :: h4 :: rest3 =>
            match hexVal h1, hexVal h2, hexVal h3, hexVal h4 with
            | some a, some b, some c4, some d =>
              (parseJsonStrBody fuel rest3).map
                (fun p => (strCons (Char.ofNat (((a * 16 + b) * 16 + c4) * 16 + d)) p.1, p.2))
            | _, _, _, _ => none
          | _ => none
        else
          match escChar e with
          | some ec => (parseJsonStrBody fuel rest2).map (fun p => (strCons ec p.1, p.2))
          | none => none
    else if c.toNat < 32 then none
    else (parseJsonStrBody fuel rest).map (fun p => (strCons c p.1, p.2))

def jsonDigitsToNat (ds : List Char) : Nat :=
  ds.foldl (fun a c => a * 10 + (c.toNat - 48)) 0

/-- A JSON number: `-? int frac? exp?`.  A leading `0` may not be followed
by further integer digits (as in CPython; `int(1*2/3)`-style trailing
garbage is rejected by the caller). -/
def parseJsonNumber (cs : List Char) : Option ((Int × Int) × List Char) :=
  let signed : Bool × List Char :=
    match cs with
    | '-' :: r => (true, r)
    | _ => (false, cs)
  let neg := signed.1
  match signed.2 with
  | [] => none
  | c :: rest =>
    if ¬c.isDigit then none
    else
      let intPart : Nat × List Char :=
        if c = '0' then (0, rest)
        else
          let sp := (c :: rest).span Char.isDigit
          (jsonDigitsToNat sp.1, sp.2)
      let m0 := intPart.1
      let fraced : Option (Nat × Int × List Char) :=
        match intPart.2 with
        | '.' :: r2 =>
          let sp := r2.span Char.isDigit
          if sp.1.isEmpty then none
          else some (m0 * 10 ^ sp.1.length + jsonDigitsToNat sp.1,
                     -(sp.1.length : Int), sp.2)
        | _ => some (m0, 0, intPart.2)
      match fraced with
      | none => none
      | some (m1, e1, cs3) =>
        let exped : Option (Int × List Char) :=
          match cs3 with
          | c3 :: r3 =>
            if c3 = 'e' ∨ c3 = 'E' then
              let esigned : Bool × List Char :=
                match r3 with
                | '+' :: r4 => (false, r4)
                | '-' :: r4 => (true, r4)
                | _ => (false, r3)
              let sp := esigned.2.span Char.isDigit
              if sp.1.isEmpty then none
              else some ((if esigned.1 then -(jsonDigitsToNat sp.1 : Int)
                          else (jsonDigitsToNat sp.1 : Int)), sp.2)
            else some (0, cs3)
          | [] => some (0, [])
        match exped with
        | none => none
        | some (e2, cs4) =>
          some (((if neg then -(m1 : Int) else (m1 : Int)), e1 + e2), cs4)

mutual

/-- A JSON value, leading whitespace already skipped.  Structural recursion
on fuel; every recursion step consumes at least one character, so
`fuel = length + 1` always suffices (`jsonLoads` passes that). -/
def parseJsonValue : Nat → List Char → Option (Json × List Char)
  | 0, _ => none
  | fuel + 1, cs =>
    match cs with
    | [] => none
    | 'n' :: 'u' :: 'l' :: 'l' :: rest => some (.null, rest)
    | 't' :: 'r' :: 'u' :: 'e' :: rest => some (.bool true, rest)
    | 'f' :: 'a' :: 'l' :: 's' :: 'e' :: rest => some (.bool false, rest)
    | 'N' :: 'a' :: 'N' :: rest => some (.nan, rest)
    | 'I' :: 'n' :: 'f' :: 'i' :: 'n' :: 'i' :: 't' :: 'y' :: rest =>
        some (.inf false, rest)
    | '-' :: 'I' :: 'n' :: 'f' :: 'i' :: 'n' :: 'i' :: 't' :: 'y' :: rest =>
        some (.inf true, rest)
    | '"' :: rest =>
        (parseJsonStrBody (rest.length + 1) rest).map (fun p => (.str p.1, p.2))
    | '{' :: rest =>
        match skipJsonWs rest with
        | '}' :: rest2 => some (.obj [], rest2)
        | rest2 => parseJsonMembers fuel rest2 []
    | '[' :: rest =>
        match skipJsonWs rest with
        | ']' :: rest2 => some (.arr [], rest2)
        | rest2 => parseJsonItems fuel rest2 []
    | _ => (parseJsonNumber cs).map (fun p => (.num p.1.1 p.1.2, p.2))

/-- Members of a JSON object after `{` (at least one member), whitespace
before the first key already skipped.  Python keeps the last value for a
duplicated key; members are accumulated in source order and `pyDictGet`
takes the last. -/
def parseJsonMembers : Nat → List Char → List (String × Json) →
    Option (Json × List Char)
  | 0, _, _ => none
  | fuel + 1, cs, acc =>
    match cs with
    | '"' :: rest =>
      match parseJsonStrBody (rest.length + 1) rest with
      | none => none
      | some (key, rest2) =>
        match skipJsonWs rest2 with
        | ':' :: rest3 =>
          match parseJsonValue fuel (skipJsonWs rest3) with
          | none => none
          | some (v, rest4) =>
            match skipJsonWs rest4 with
            | ',' :: rest5 => parseJsonMembers fuel (skipJsonWs rest5) (acc ++ [(key, v)])
            | '}' :: rest5 => some (.obj (acc ++ [(key, v)]), rest5)
            | _ => none
        | _ => none
    | _ => none

/-- Items of a JSON array after `[` (at least one item), whitespace before
the first item already skipped. -/
def parseJsonItems : Nat → List Char → List Json → Option (Json × List Char)
  | 0, _, _ => none
  | fuel + 1, cs, acc =>
    match parseJsonValue fuel cs with
    | none => none
    | some (v, rest) =>
      match skipJsonWs rest with
      | ',' :: rest2 => parseJsonItems fuel (skipJsonWs rest2) (acc ++ [v])
      | ']' :: rest2 => some (.arr (acc ++ [v]), rest2)
      | _ => none

end

/-- Model of Python's `json.loads`: parse one value surrounded by optional
whitespace; anything left over is an error ("Extra data"). -/
def jsonLoads (s : String) : Option Json :=
  match parseJsonValue (s.data.length + 1) (skipJsonWs s.data) with
  | some (v, rest) => if skipJsonWs rest = [] then some v else none
  | none => none

/-! ## Modal STT protocol (`ex_app/lib/protocols/modal.py`) -/

/-- Embedding of `ModalMessageType` from `ex_app/lib/protocols/modal.py`. -/
inductive ModalMessageType where
  | token
  | vadEnd
  | error
  | ping
  | unknown
  deriving Repr, DecidableEq

/-- Embedding of `ModalMessage` from `ex_app/lib/protocols/modal.py`.  The `text` and
`error_message` fields hold whatever JSON value `data.get(...)` returned
(Python does not restrict them to strings); their dataclass defaults are the
empty string. -/
structure ModalMessage where
  type : ModalMessageType
  text : Json := .str ""
  error_message : Json := .str ""
  raw : String := ""

/-- Python `dict.get(key, default)` on a parsed JSON object: the value of the last
occurrence of the key (Python keeps the last duplicate), or the default. -/
def pyDictGet (fields : List (String × Json)) (key : String) (default : Json) : Json :=
  match fields.reverse.find? (fun kv => kv.1 = key) with
  | some kv => kv.2
  | none => default

/-- Python `raw_message[:100]`: the first 100 code points. -/
def pyTake (n : Nat) (s : String) : String := ⟨s.data.take n⟩

/-- Embedding of `parse_modal_message(raw_message)` from `ex_app/lib/protocols/modal.py`.
Only `json.loads` is inside the `try`, so a decode failure returns the
`Error("Invalid JSON: …")` message, while `data.get("type", "")` on a
successfully decoded non-object (list, number, string, …) raises an
uncaught `AttributeError`.  The `type` dispatch compares the field against
string literals, so any non-string `type` value falls through to
`UNKNOWN`. -/
def parse_modal_message (raw_message : String) : Except PyError ModalMessage :=
  match jsonLoads raw_message with
  | none =>
      .ok { type := .error,
            error_message := .str ("Invalid JSON: " ++ pyTake 100 raw_message),
            raw := raw_message }
  | some data =>
    match data with
    | .obj fields =>
      match pyDictGet fields "type" (.str "") with
      | .str t =>
        if t = "token" then
          .ok { type := .token, text := pyDictGet fields "text" (.str ""),
                raw := raw_message }
        else if t = "vad_end" then
          .ok { type := .vadEnd, raw := raw_message }
        else if t = "error" then
          .ok { type := .error,
                error_message := pyDictGet fields "message" (.str "Unknown error"),
                raw := raw_message }
        else if t = "ping" then
          .ok { type := .ping, raw := raw_message }
        else
          .ok { type := .unknown, raw := raw_message }
      | _ => .ok { type := .unknown, raw := raw_message }
    | _ => .error .attributeError

theorem parse_modal_message_raw_aux (s : String) (m : ModalMessage)
    (h : parse_modal_message s = .ok m) : m.raw = s := by
  unfold parse_modal_message at h
  repeat' split at h
  all_goals cases h
  all_goals rfl

/-- C5 (amended): `parse_modal_message` returns a message with `raw = s` on
every variant it returns; a JSON decode failure yields the Error variant
with `error_message` `"Invalid JSON: "` followed by the first 100
characters of the input; when the input decodes to a JSON object the
variant is determined by the `"type"` field; but when the input is valid
JSON that is not an object, the function raises `AttributeError` instead of
returning a message. -/
theorem parse_modal_message_spec (s : String) :
    (jsonLoads s = none →
      parse_modal_message s = .ok
        { type := .error,
          error_message := .str ("Invalid JSON: " ++ pyTake 100 s), raw := s }) ∧
    (∀ fields, jsonLoads s = some (.obj fields) →
      (pyDictGet fields "type" (.str "") = .str "token" →
        parse_modal_message s = .ok
          { type := .token,
            text := pyDictGet fields "text" (.str ""), raw := s }) ∧
      (pyDictGet fields "type" (.str "") = .str "vad_end" →
        parse_modal_message s = .ok { type := .vadEnd, raw := s }) ∧
      (pyDictGet fields "type" (.str "") = .str "error" →
        parse_modal_message s = .ok
          { type := .error,
            error_message := pyDictGet fields "message" (.str "Unknown error"),
            raw := s }) ∧
      (pyDictGet fields "type" (.str "") = .str "ping" →
        parse_modal_message s = .ok { type := .ping, raw := s }) ∧
      ((∀ t, pyDictGet fields "type" (.str "") = .str t →
          t ≠ "token" ∧ t ≠ "vad_end" ∧ t ≠ "error" ∧ t ≠ "ping") →
        parse_modal_message s = .ok { type := .unknown, raw := s })) ∧
    (∀ d, jsonLoads s = some d → (∀ fields, d ≠ .obj fields) →
      parse_modal_message s = .error .attributeError) ∧
    (∀ m, parse_modal_message s = .ok m → m.raw = s) := by
  refine ⟨?_, ?_, ?_, parse_modal_message_raw_aux s⟩
  · intro h
    simp [parse_modal_message, h]
  · intro fields h
    refine ⟨?_, ?_, ?_, ?_, ?_⟩
    · intro hty
      simp [parse_modal_message, h, hty]
    · intro hty
      simp [parse_modal_message, h, hty]
    · intro hty
      simp [parse_modal_message, h, hty]
    · intro hty
      simp [parse_modal_message, h, hty]
    · intro hty
      cases hget : pyDictGet fields "type" (.str "") with
      | str t =>
          have hne := hty t hget
          simp [parse_modal_message, h, hget, hne.1, hne.2.1, hne.2.2.1, hne.2.2.2]
      | null => simp [parse_modal_message, h, hget]
      | bool b => simp [parse_modal_message, h, hget]
      | num m e => simp [parse_modal_message, h, hget]
      | arr xs => simp [parse_modal_message, h, hget]
      | obj kvs => simp [parse_modal_message, h, hget]
      | nan => simp [parse_modal_message, h, hget]
      | inf b => simp [parse_modal_message, h, hget]
  · intro d h hne
    cases d with
    | obj fields => exact absurd rfl (hne fields)
    | null => simp [parse_modal_message, h]
    | bool b => simp [parse_modal_message, h]
    | num m e => simp [parse_modal_message, h]
    | str t => simp [parse_modal_message, h]
    | arr xs => simp [parse_modal_message, h]
    | nan => simp [parse_modal_message, h]
    | inf b => simp [parse_modal_message, h]

/-- Witness for `parse_modal_message_spec`: the token message from the
spec's concrete scenario. -/
theorem parse_modal_message_spec_witness :
    parse_modal_message "\x7b\"type\": \"token\", \"text\": \"hello\"\x7d" =
      .ok
        { type := .token, text := .str "hello",
          raw := "\x7b\"type\": \"token\", \"text\": \"hello\"\x7d" } :=
  ((parse_modal_message_spec "\x7b\"type\": \"token\", \"text\": \"hello\"\x7d").2.1
    [("type", Json.str "token"), ("text", Json.str "hello")] rfl).1 rfl

/-- C5 counterexample: `"5"` is valid JSON, but `parse_modal_message "5"`
raises `AttributeError` (`int` has no `.get`) instead of returning a
message. -/
theorem parse_modal_message_nonobject_counterexample :
    jsonLoads "5" = some (.num 5 0) ∧
    parse_modal_message "5" = .error .attributeError :=
  ⟨rfl, rfl⟩

/-! ## Transcriber results (`ex_app/lib/transcriber.py`) and the per-speaker
consume pipeline (`SpreedClient._consume_transcriber_results`) -/

/-- The STT message union of §4.B, i.e. the `type` dispatch performed by
`ModalTranscriber._parse_result` on a decoded JSON frame. -/
inductive SttMsg where
  | token (text : String)
  | vadEnd
  | error (message : String)
  | ping
  | unknown
  deriving Repr, DecidableEq

/-- Embedding of `TranscriptionResult` from `ex_app/lib/transcriber.py`. -/
structure TranscriptionResult where
  text : String
  is_final : Bool
  is_vad_end : Bool := false
  deriving Repr, DecidableEq

/-- Embedding of `Transcript` from `ex_app/lib/livetypes.py`. -/
structure Transcript where
  final : Bool
  lang_id : String
  message : String
  speaker_session_id : String
  deriving Repr, DecidableEq

/-- Embedding of `ModalTranscriber._parse_result` (`ex_app/lib/transcriber.py`), after
JSON decoding, keyed by message type: a `token` yields a non-final result
carrying the text (also when the text is empty); `vad_end` yields an
empty-text result flagged final and vad_end; `error`, `ping` and unknown
types yield no result (they are logged and dropped, so nothing is queued
for the consumer). -/
def parseResult : SttMsg → Option TranscriptionResult
  | .token text => some { text := text, is_final := false }
  | .vadEnd => some { text := "", is_final := true, is_vad_end := true }
  | _ => none

/-- Python `str.strip()` with no argument: remove leading and trailing
ASCII whitespace (non-ASCII unicode whitespace is out of scope for the
claims). -/
def pyIsSpace (c : Char) : Bool :=
  c = ' ' || c = '\t' || c = '\n' || c = '\r' || c = '\x0B' || c = '\x0C'

def pyStrip (s : String) : String :=
  ⟨((s.data.dropWhile pyIsSpace).reverse.dropWhile pyIsSpace).reverse⟩

/-- One loop iteration of `SpreedClient._consume_transcriber_results`
(`ex_app/lib/spreed_client.py`): append non-empty token text to the
accumulator; on a vad-end or final result emit a final transcript when the
stripped accumulator is non-empty and clear the accumulator; otherwise emit
a partial transcript exactly when the accumulator is non-empty and longer
than 50 characters.  Returns the new accumulator and the transcripts put on
`transcript_queue`. -/
def consumeResultStep (lang_id speaker_sid accumulated_text : String)
    (result : TranscriptionResult) : String × List Transcript :=
  let acc1 := if result.text ≠ "" then accumulated_text ++ result.text
              else accumulated_text
  if result.is_vad_end || result.is_final then
    ("",
      if pyStrip acc1 ≠ "" then
        [{ final := true, lang_id := lang_id, message := pyStrip acc1,
           speaker_session_id := speaker_sid }]
      else [])
  else if acc1 ≠ "" ∧ 50 < acc1.length then
    (acc1, [{ final := false, lang_id := lang_id, message := acc1,
              speaker_session_id := speaker_sid }])
  else (acc1, [])

/-- The consume loop of `SpreedClient._consume_transcriber_results` over a
sequence of STT messages: messages that produce no `TranscriptionResult`
are skipped, the rest are folded through `consumeResultStep`.  Returns the
final accumulator and the emitted transcripts in order. -/
def consumeResults (lang_id speaker_sid : String) :
    String → List SttMsg → String × List Transcript
  | acc, [] => (acc, [])
  | acc, m :: rest =>
    match parseResult m with
    | none => consumeResults lang_id speaker_sid acc rest
    | some r =>
      let st := consumeResultStep lang_id speaker_sid acc r
      let tail := consumeResults lang_id speaker_sid st.1 rest
      (tail.1, st.2 ++ tail.2)

theorem ne_empty_of_fifty_lt_length {x : String} (h : 50 < x.length) : x ≠ "" := by
  intro he
  subst he
  simp at h

theorem consumeResultStep_token (lang_id speaker_sid acc t : String) :
    consumeResultStep lang_id speaker_sid acc { text := t, is_final := false } =
      (acc ++ t,
        if 50 < (acc ++ t).length then
          [{ final := false, lang_id := lang_id, message := acc ++ t,
             speaker_session_id := speaker_sid }]
        else []) := by
  have hacc : (if (t ≠ "") then acc ++ t else acc) = acc ++ t := by
    by_cases ht : t = "" <;> simp [ht]
  by_cases hlen : 50 < acc.length + t.length
  · have h2 : 50 < (acc ++ t).length := by
      simpa [String.length_append] using hlen
    simp [consumeResultStep, hacc, hlen, ne_empty_of_fifty_lt_length h2]
  · simp [consumeResultStep, hacc, hlen]

/-- C2: the per-speaker pipeline, fed by `ModalTranscriber._parse_result`
and consumed by `SpreedClient._consume_transcriber_results`.  A `Token`
appends its text to the speaker's accumulator and a partial transcript
`{final := false, message := accumulator, speaker_session_id}` is emitted
exactly when the accumulator exceeds 50 characters; `VadEnd` emits a final
transcript with the stripped accumulator exactly when that is non-empty and
clears the accumulator; `Error`/`Ping`/unknown messages emit nothing; and
the spec's concrete scenario — six 10-character tokens then `VadEnd` —
yields exactly one partial transcript (after the sixth token) followed by
one final transcript with the full 60-character text, leaving the
accumulator empty. -/
theorem consume_pipeline_spec (lang_id speaker_sid : String) :
    (∀ acc t, consumeResults lang_id speaker_sid acc [.token t] =
      (acc ++ t,
        if 50 < (acc ++ t).length then
          [{ final := false, lang_id := lang_id, message := acc ++ t,
             speaker_session_id := speaker_sid }]
        else [])) ∧
    (∀ acc, consumeResults lang_id speaker_sid acc [.vadEnd] =
      ("",
        if pyStrip acc ≠ "" then
          [{ final := true, lang_id := lang_id, message := pyStrip acc,
             speaker_session_id := speaker_sid }]
        else [])) ∧
    (∀ acc e, consumeResults lang_id speaker_sid acc [.error e] = (acc, []) ∧
      consumeResults lang_id speaker_sid acc [.ping] = (acc, []) ∧
      consumeResults lang_id speaker_sid acc [.unknown] = (acc, [])) ∧
    consumeResults lang_id speaker_sid ""
        (List.replicate 6 (.token "abcdefghij") ++ [.vadEnd]) =
      ("",
        [{ final := false, lang_id := lang_id,
           message := "abcdefghijabcdefghijabcdefghijabcdefghijabcdefghijabcdefghij",
           speaker_session_id := speaker_sid },
         { final := true, lang_id := lang_id,
           message := "abcdefghijabcdefghijabcdefghijabcdefghijabcdefghijabcdefghij",
           speaker_session_id := speaker_sid }]) := by
  refine ⟨?_, ?_, ?_, ?_⟩
  · intro acc t
    show (let st := consumeResultStep lang_id speaker_sid acc
            { text := t, is_final := false };
          let tail := consumeResults lang_id speaker_sid st.1 [];
          (tail.1, st.2 ++ tail.2)) = _
    rw [consumeResultStep_token]
    simp only [consumeResults, List.append_nil]
  · intro acc
    by_cases hs : pyStrip acc ≠ "" <;>
      simp [consumeResults, parseResult, consumeResultStep, hs]
  · intro acc e
    exact ⟨rfl, rfl, rfl⟩
  · rfl

/-! ## SpreedClient state machine (`ex_app/lib/spreed_client.py`)

The orchestrator's own concurrency discipline (a mutex per orchestrator,
callbacks serialised on it) lets each operation be modelled as an atomic
step on the client state; the claims quantify over the states an operation
can start from.  `asyncio.Task` slots are tracked as absent / pending /
finished; a task created with `asyncio.create_task` either runs later as
its own step (e.g. `maybeLeaveCallFire`) or — for `close()` scheduled from
inside another operation — is run inline, which matches a run where the
scheduled task is the next to execute. -/

/-- Status of an `asyncio.Task` attribute (`None`, running, done). -/
inductive TaskSlot where
  | absent
  | pending
  | finished
  deriving Repr, DecidableEq

/-- State of the signaling WebSocket (`websockets` `State.OPEN` vs any
non-open state). -/
inductive SockState where
  | opened
  | closed
  deriving Repr, DecidableEq

/-- Payloads of outbound signaling frames (`send_hello`, `send_incall`,
`send_join`, `send_offer_request`, `send_offer_answer`, `send_candidate`,
`send_bye`, `send_transcript`). -/
inductive SigOut where
  | helloAuth
  | helloResume (resumeid : Option String)
  | incall
  | room (roomid : String) (sessionid : Option String)
  | requestoffer (dest : String)
  | answer (dest : String) (sid : String)
  | candidate (dest : String) (sid : String) (line : String)
  | bye
  | transcriptMsg (dest : String) (t : Transcript)
  deriving Repr, DecidableEq

/-- An outbound frame as put on the wire: the message with its assigned
`id`. -/
structure Frame where
  id : Nat
  payload : SigOut
  deriving Repr, DecidableEq

/-- Inbound signaling frames as the connect state machine distinguishes
them. -/
inductive SigIn where
  | welcome
  | hello (sessionid : String) (resumeid : String)
  | error (code : String)
  | bye
  | other
  deriving Repr, DecidableEq

/-- Embedding of `ReconnectMethod` from `ex_app/lib/livetypes.py`. -/
inductive ReconnectMethod where
  | noReconnect
  | shortResume
  | fullReconnect
  deriving Repr, DecidableEq

/-- Embedding of `SigConnectResult` from `ex_app/lib/livetypes.py`. -/
inductive SigConnectResult where
  | success
  | failure
  | retry
  deriving Repr, DecidableEq

/-- The mutable state of a `SpreedClient` (`__init__`,
`ex_app/lib/spreed_client.py`).  `transcribers` maps speaker HPB session id
to its transcriber's language; `peerConnections` keeps the speakers with a
live (not closed/failed) peer connection. -/
structure SpreedState where
  id : Nat
  server : Option SockState
  defunct : Bool
  monitor : TaskSlot
  deferredCloseTask : TaskSlot
  reconnectTask : TaskSlot
  closeTask : TaskSlot
  transcriptSender : TaskSlot
  resumeid : Option String
  sessionid : Option String
  targets : List String
  ncSidMap : List (String × String)
  waitStash : List String
  transcriptQueue : List Transcript
  transcribers : List (String × String)
  peerConnections : List String
  langId : String
  roomToken : String
  deriving Repr, DecidableEq

/-- First-match lookup in an association list (the model keeps keys unique,
updating in place, so this is Python dict lookup). -/
def lookupAssoc (m : List (String × String)) (k : String) : Option String :=
  (m.find? fun kv => kv.1 = k).map (·.2)

/-- Embedding of `SpreedClient.send_message`: without an attached socket the message is
dropped before an id is assigned; with one, the counter is incremented and
the id attached.  A send on a non-open socket raises `WebSocketException`,
whose handler schedules a short-resume reconnect task if none is running —
the frame does not reach the wire but the id was consumed.  Returns the new
state, the frames put on the wire, and the id assigned to the message. -/
def sendMessage (s : SpreedState) (payload : SigOut) :
    SpreedState × List Frame × Option Nat :=
  match s.server with
  | none => (s, [], none)
  | some sock =>
    let i := s.id + 1
    let s1 := { s with id := i }
    match sock with
    | .opened => (s1, [{ id := i, payload := payload }], some i)
    | .closed =>
        ((if s1.reconnectTask = .pending then s1
          else { s1 with reconnectTask := .pending }), [], some i)

/-- Embedding of `SpreedClient.close`: a no-op on an already-defunct client; otherwise
cancel the deferred-close, reconnect and monitor tasks, best-effort
`send_bye`, drop all transcribers / peer connections / session ids, cancel
the transcript sender, drain the transcript queue, close the socket and set
the defunct event.  (The `leave_call_cb` notification performs no signaling
I/O and is not tracked.) -/
def closeOp (s : SpreedState) : SpreedState × List Frame :=
  if s.defunct then (s, [])
  else
    let s1 := { s with
      deferredCloseTask :=
        if s.deferredCloseTask = .pending then .absent else s.deferredCloseTask,
      reconnectTask :=
        if s.reconnectTask = .pending then .absent else s.reconnectTask,
      monitor := .absent }
    let sent := sendMessage s1 .bye
    let s2 := sent.1
    ({ s2 with
        transcribers := [], peerConnections := [],
        resumeid := none, sessionid := none,
        transcriptSender := .absent,
        transcriptQueue := [],
        server := none,
        defunct := true }, sent.2.1)

/-- Environment of one `connect` call: whether the `websockets.connect`
call at the top succeeds, and the inbound frames the handshake reads (the
`k`-th call to `receive` within one read loop yields `frames k`; a receive
timeout would raise out of `connect` and is not modelled). -/
structure ConnectEnv where
  canConnect : Bool
  frames : Nat → SigIn

/-- Embedding of `SpreedClient.receive`: `None` without an attached socket, otherwise
the next inbound frame. -/
def receiveIn (s : SpreedState) (env : ConnectEnv) (k : Nat) : Option SigIn :=
  match s.server with
  | none => none
  | some _ => some (env.frames k)

/-- Outcome of `SpreedClient._resume_connection`. -/
inductive ResumeOutcome where
  | resumed
  | failed
  | rateLimited
  deriving Repr, DecidableEq

/-- The read loop of `_resume_connection` (`while msg_counter < 10`): a
`hello` captures the new session id and succeeds; `error` ends the resume
(`no_such_session` and any unlisted code fail it, `too_many_requests`
raises `SpreedRateLimitedException`); any other frame is counted. -/
def resumeLoop (env : ConnectEnv) : Nat → Nat → SpreedState →
    SpreedState × ResumeOutcome
  | 0, _, s => (s, .failed)
  | fuel + 1, k, s =>
    match receiveIn s env k with
    | none => (s, .failed)
    | some msg =>
      match msg with
      | .hello sid _ => ({ s with sessionid := some sid }, .resumed)
      | .error code =>
          if code = "no_such_session" then (s, .failed)
          else if code = "too_many_requests" then (s, .rateLimited)
          else (s, .failed)
      | _ => resumeLoop env fuel (k + 1) s

/-- Embedding of `SpreedClient._resume_connection`: send the short `hello{resumeid}`
and run the read loop (at most 10 messages). -/
def resumeConnection (s : SpreedState) (env : ConnectEnv) :
    SpreedState × List Frame × ResumeOutcome :=
  let sent := sendMessage s (.helloResume s.resumeid)
  let looped := resumeLoop env 10 0 sent.1
  (looped.1, sent.2.1, looped.2)

/-- Exit of the Fresh/FullReconnect handshake read loop. -/
inductive HsExit where
  | failure
  | retry
  | gotHello (sid rid : String)
  deriving Repr, DecidableEq

/-- The Fresh/FullReconnect read loop of `SpreedClient.connect` (lines
309–387): `error{duplicate_session}` and unlisted error codes and `bye`
fail terminally, `error{room_join_failed}` exits with a retry, `welcome`
is skipped without counting, `hello` captures `session_id`/`resume_id`,
and any other frame counts toward the 10-frame limit, whose overflow exits
with a retry.  `fuel` pays for one frame per step; `none` means the fuel
ran out before the loop exited (the source loop would still be reading). -/
def handshakeLoop (env : ConnectEnv) : Nat → Nat → Nat → SpreedState →
    SpreedState × Option HsExit
  | 0, _, _, s => (s, none)
  | fuel + 1, k, counter, s =>
    match receiveIn s env k with
    | none => (s, some .failure)
    | some msg =>
      match msg with
      | .error code =>
          if code = "duplicate_session" then (s, some .failure)
          else if code = "room_join_failed" then (s, some .retry)
          else (s, some .failure)
      | .bye => (s, some .failure)
      | .welcome => handshakeLoop env fuel (k + 1) counter s
      | .hello sid rid =>
          ({ s with sessionid := some sid, resumeid := some rid },
            some (.gotHello sid rid))
      | .other =>
          if 10 < counter + 1 then (s, some .retry)
          else handshakeLoop env fuel (k + 1) (counter + 1) s

/-- The shared tail of Fresh and FullReconnect connects: `send_hello`, the
read loop, and on `hello` clearing the defunct event, starting the monitor
and (if needed) the transcript consumer, scheduling the deferred-close
probe on a fresh connect, and sending `incall` and room `join`. -/
def connectHandshake (s : SpreedState) (reconnect : ReconnectMethod)
    (env : ConnectEnv) (fuel : Nat) (accFrames : List Frame) :
    SpreedState × Option SigConnectResult × List Frame :=
  let sentHello := sendMessage s .helloAuth
  let looped := handshakeLoop env fuel 0 0 sentHello.1
  match looped.2 with
  | none => (looped.1, none, accFrames ++ sentHello.2.1)
  | some .failure => (looped.1, some .failure, accFrames ++ sentHello.2.1)
  | some .retry =>
      ((if reconnect ≠ .noReconnect then { looped.1 with reconnectTask := .pending }
        else looped.1), some .retry, accFrames ++ sentHello.2.1)
  | some (.gotHello _ _) =>
      let s3 := { looped.1 with
        defunct := false,
        monitor := .pending,
        transcriptSender :=
          if looped.1.transcriptSender = .pending then looped.1.transcriptSender
          else .pending,
        deferredCloseTask :=
          if reconnect = .noReconnect then .pending
          else looped.1.deferredCloseTask }
      let sent2 := sendMessage s3 .incall
      let sent3 := sendMessage sent2.1 (.room sent2.1.roomToken sent2.1.sessionid)
      (sent3.1, some .success, accFrames ++ sentHello.2.1 ++ sent2.2.1 ++ sent3.2.1)
/-- Embedding of `SpreedClient.connect` (`ex_app/lib/spreed_client.py`, lines 193–406),
with the websocket-connection outcome and inbound frames supplied by
`env`.  Result: the final state, the `SigConnectResult` (`none` when the
read-loop fuel ran out), and the outbound frames put on the wire, in
order.  Close tasks scheduled on rate-limit remain pending in the state
(they run as a later `closeOp` step). -/
def connect (s : SpreedState) (reconnect : ReconnectMethod) (env : ConnectEnv)
    (fuel : Nat) : SpreedState × Option SigConnectResult × List Frame :=
  if s.server = some .opened ∧ reconnect ≠ .fullReconnect then
    (s, some .success, [])
  else if ¬env.canConnect then
    ((if reconnect ≠ .noReconnect then { s with reconnectTask := .pending }
      else s), some .retry, [])
  else
    let sOpen := { s with server := some .opened }
    match reconnect with
    | .shortResume =>
      let s0 := { sOpen with reconnectTask := .absent }
      let res := resumeConnection s0 env
      match res.2.2 with
      | .rateLimited =>
          ((if res.1.closeTask = .absent then { res.1 with closeTask := .pending }
            else res.1), some .failure, res.2.1)
      | .resumed =>
          let sent2 := sendMessage res.1 .incall
          let sent3 := sendMessage sent2.1 (.room sent2.1.roomToken sent2.1.sessionid)
          (sent3.1, some .success, res.2.1 ++ sent2.2.1 ++ sent3.2.1)
      | .failed =>
          ({ res.1 with reconnectTask := .pending }, some .retry, res.2.1)
    | .fullReconnect =>
      let s0 := { sOpen with reconnectTask := .absent }
      let closed := closeOp s0
      let s1 := { closed.1 with
        defunct := true, deferredCloseTask := .absent, monitor := .absent,
        resumeid := none, sessionid := none, server := none }
      connectHandshake s1 .fullReconnect env fuel closed.2
    | .noReconnect => connectHandshake sOpen .noReconnect env fuel []

/-- Embedding of `SpreedClient.add_target`: with no HPB mapping for the Nextcloud
session id yet, the recipient is stashed for the participant-update
handler and the method returns (the deferred-close task is left alone);
with a known mapping, the recipient is added to `targets` and a
deferred-close task, if any, is cancelled. -/
def addTarget (s : SpreedState) (ncSessionId : String) : SpreedState :=
  match lookupAssoc s.ncSidMap ncSessionId with
  | none =>
      { s with waitStash :=
          if ncSessionId ∈ s.waitStash then s.waitStash
          else s.waitStash ++ [ncSessionId] }
  | some sessionId =>
      let s1 := { s with waitStash := s.waitStash.erase ncSessionId }
      let s2 :=
        if sessionId ∈ s1.targets then s1
        else { s1 with targets := s1.targets ++ [sessionId] }
      if s2.deferredCloseTask ≠ .absent then
        { s2 with deferredCloseTask := .absent }
      else s2

/-- Embedding of `SpreedClient.remove_target`: drop the stash entry; with a known
mapping remove the target, and when the target set becomes empty cancel
any deferred-close task and schedule a fresh one (`maybe_leave_call`). -/
def removeTarget (s : SpreedState) (ncSessionId : String) : SpreedState :=
  let s1 := { s with waitStash := s.waitStash.erase ncSessionId }
  match lookupAssoc s1.ncSidMap ncSessionId with
  | none => s1
  | some sessionId =>
      if sessionId ∈ s1.targets then
        let s2 := { s1 with targets := s1.targets.erase sessionId }
        if s2.targets.length = 0 then
          { s2 with deferredCloseTask := .pending }
        else s2
      else s1

/-- The deferred-close task (`SpreedClient.maybe_leave_call`) firing after
its `CALL_LEAVE_TIMEOUT` sleep.  A cancelled or absent task never runs.
On a defunct client the task only clears its slot.  With no targets left a
close task is scheduled (run inline here: the scheduled `close()` is the
next step of such a run) and the slot cleared. -/
def maybeLeaveCallFire (s : SpreedState) : SpreedState × List Frame :=
  if s.deferredCloseTask ≠ .pending then (s, [])
  else if s.defunct then ({ s with deferredCloseTask := .absent }, [])
  else if s.targets.length = 0 then
    if s.closeTask = .absent then
      let closed := closeOp { s with closeTask := .pending }
      ({ closed.1 with deferredCloseTask := .absent }, closed.2)
    else ({ s with deferredCloseTask := .absent }, [])
  else ({ s with deferredCloseTask := .absent }, [])

/-- An inbound WebRTC offer: sender session id, offer `sid`, and SDP. -/
structure OfferMsg where
  sender : String
  sid : String
  sdp : String
  deriving Repr, DecidableEq

/-- The candidate loop at the end of `SpreedClient.handle_offer`: walk the
local SDP lines, stop if the client became defunct, and send each
`a=candidate:` line (without its `a=` prefix) to the publisher. -/
def sendCandidatesLoop (msg : OfferMsg) :
    SpreedState → List String → SpreedState × List Frame
  | s, [] => (s, [])
  | s, line :: rest =>
      if s.defunct then (s, [])
      else
        let sent := sendMessage s (.candidate msg.sender msg.sid (line.drop 2))
        let tail := sendCandidatesLoop msg sent.1 rest
        (tail.1, sent.2.1 ++ tail.2)

/-- Embedding of `SpreedClient.handle_offer`: return immediately on a defunct client or
when a live peer connection for the sender exists; otherwise register the
peer connection, complete the (external) SDP exchange, re-check the
defunct event before answering, then send the answer followed by one
candidate message per `a=candidate:` line of the local SDP
(`localSdpLines`; the aiortc answer itself is external input).  The
`on_track` transcriber start is bookkeeping on the transcriber map and is
not part of the signaling claims. -/
def handleOffer (s : SpreedState) (msg : OfferMsg) (localSdpLines : List String) :
    SpreedState × List Frame :=
  if s.defunct then (s, [])
  else if msg.sender ∈ s.peerConnections then (s, [])
  else
    let s1 := { s with peerConnections := s.peerConnections ++ [msg.sender] }
    if s1.defunct then (s1, [])
    else
      let sent := sendMessage s1 (.answer msg.sender msg.sid)
      let cands := sendCandidatesLoop msg sent.1
        (localSdpLines.filter fun l => l.startsWith "a=candidate:")
      (cands.1, sent.2.1 ++ cands.2)

/-- Embedding of `SpreedClient.send_transcript`: snapshot the targets under the lock;
nothing is sent when there are none; otherwise one `message` frame per
target session id. -/
def sendToTargets (t : Transcript) :
    SpreedState → List String → SpreedState × List Frame
  | s, [] => (s, [])
  | s, sid :: rest =>
      let sent := sendMessage s (.transcriptMsg sid t)
      let tail := sendToTargets t sent.1 rest
      (tail.1, sent.2.1 ++ tail.2)

def sendTranscript (s : SpreedState) (t : Transcript) : SpreedState × List Frame :=
  if s.targets.length = 0 then (s, [])
  else sendToTargets t s s.targets

/-- One iteration of `SpreedClient.transcript_queue_consumer`: while the
client is defunct the consumer sleeps and retries without touching the
queue; otherwise it dequeues one transcript (an empty queue blocks — a
no-op here) and sends it to every current target, dropping it on timeout
or error without further effects. -/
def transcriptConsumerStep (s : SpreedState) : SpreedState × List Frame :=
  if s.defunct then (s, [])
  else
    match s.transcriptQueue with
    | [] => (s, [])
    | t :: rest => sendTranscript { s with transcriptQueue := rest } t

/-- Embedding of `TranscriptionProviderException` from `ex_app/lib/livetypes.py`. -/
structure TPException where
  message : String
  retcode : Int
  deriving Repr, DecidableEq

/-- Embedding of `SpreedClient.set_language`.  `ModalTranscriber.set_language` only
assigns an attribute, but the source wraps each per-transcriber call in
`try/except` and collects the exceptions, so the hypothetical outcome of
each call is an input here (`none` = success, `some e` = raised `e`),
aligned with the transcriber list.  All transcribers are attempted; with
at least one exception a `TranscriptionProviderException` with retcode 500
is raised and `lang_id` is left unchanged; otherwise `lang_id` is
updated. -/
def setLanguage (s : SpreedState) (langId : String)
    (outcomes : List (Option String)) : SpreedState × Option TPException :=
  let excs := outcomes.filterMap id
  let newTranscribers :=
    List.zipWith (fun (tr : String × String) o =>
      match o with
      | none => (tr.1, langId)
      | some _ => tr) s.transcribers outcomes
  let s1 := { s with transcribers := newTranscribers }
  if 1 < excs.length then
    (s1, some { message := "Failed to set language for multiple transcribers: " ++
                  excs.headD "", retcode := 500 })
  else if excs.length = 1 then
    (s1, some { message := "Failed to set language for one transcriber: " ++
                  excs.headD "", retcode := 500 })
  else ({ s1 with langId := langId }, none)

/-- A sequence of `send_message` calls on one client; returns the final
state and the ids assigned to the messages, in order. -/
def sendSeq : SpreedState → List SigOut → SpreedState × List Nat
  | s, [] => (s, [])
  | s, m :: rest =>
    let sent := sendMessage s m
    let tail := sendSeq sent.1 rest
    (tail.1, (match sent.2.2 with | some i => [i] | none => []) ++ tail.2)

theorem sendMessage_id_cases (s : SpreedState) (m : SigOut) :
    (s.server = none → sendMessage s m = (s, [], none)) ∧
    (s.server ≠ none →
      (sendMessage s m).1.id = s.id + 1 ∧ (sendMessage s m).2.2 = some (s.id + 1)) := by
  cases hsv : s.server with
  | none => simp [sendMessage, hsv]
  | some sock =>
      refine ⟨by simp [hsv], fun _ => ?_⟩
      cases sock
      · simp [sendMessage, hsv]
      · refine ⟨?_, ?_⟩
        · have hmsg : (sendMessage s m).1 =
              (if ({ s with id := s.id + 1 } : SpreedState).reconnectTask = .pending
               then ({ s with id := s.id + 1 } : SpreedState)
               else { s with id := s.id + 1, reconnectTask := .pending }) := by
            simp [sendMessage, hsv]
          rw [hmsg]
          split <;> rfl
        · simp [sendMessage, hsv]

theorem sendSeq_id_bounds (msgs : List SigOut) : ∀ s : SpreedState,
    s.id ≤ (sendSeq s msgs).1.id ∧
    ∀ i ∈ (sendSeq s msgs).2, s.id < i ∧ i ≤ (sendSeq s msgs).1.id := by
  induction msgs with
  | nil =>
      intro s
      exact ⟨le_refl _, by simp [sendSeq]⟩
  | cons m rest ih =>
      intro s
      cases hsv : s.server with
      | none =>
          have hmsg : sendMessage s m = (s, [], none) :=
            (sendMessage_id_cases s m).1 hsv
          have hseq : sendSeq s (m :: rest) =
              ((sendSeq s rest).1, (sendSeq s rest).2) := by
            simp [sendSeq, hmsg]
          rw [hseq]
          exact ⟨(ih s).1, fun i hi => (ih s).2 i hi⟩
      | some sock =>
          have hne : s.server ≠ none := by simp [hsv]
          have h1 : (sendMessage s m).1.id = s.id + 1 :=
            ((sendMessage_id_cases s m).2 hne).1
          have h2 : (sendMessage s m).2.2 = some (s.id + 1) :=
            ((sendMessage_id_cases s m).2 hne).2
          have ihs := ih (sendMessage s m).1
          have hseq : sendSeq s (m :: rest) =
              ((sendSeq (sendMessage s m).1 rest).1,
               (s.id + 1) :: (sendSeq (sendMessage s m).1 rest).2) := by
            simp [sendSeq, h2]
          rw [hseq]
          refine ⟨?_, ?_⟩
          · calc s.id ≤ s.id + 1 := Nat.le_succ _
              _ = (sendMessage s m).1.id := h1.symm
              _ ≤ _ := ihs.1
          · intro i hi
            rcases List.mem_cons.1 hi with hhead | htail
            · subst hhead
              refine ⟨Nat.lt_succ_self _, ?_⟩
              calc s.id + 1 = (sendMessage s m).1.id := h1.symm
                _ ≤ _ := ihs.1
            · have hb := ihs.2 i htail
              refine ⟨?_, hb.2⟩
              have := hb.1
              omega

theorem sendSeq_chain_lt (msgs : List SigOut) : ∀ s : SpreedState,
    List.Chain' (· < ·) (sendSeq s msgs).2 := by
  induction msgs with
  | nil =>
      intro s
      simp [sendSeq]
  | cons m rest ih =>
      intro s
      cases hsv : s.server with
      | none =>
          have hmsg : sendMessage s m = (s, [], none) :=
            (sendMessage_id_cases s m).1 hsv
          have hseq : (sendSeq s (m :: rest)).2 = (sendSeq s rest).2 := by
            simp [sendSeq, hmsg]
          rw [hseq]
          exact ih s
      | some sock =>
          have hne : s.server ≠ none := by simp [hsv]
          have h1 : (sendMessage s m).1.id = s.id + 1 :=
            ((sendMessage_id_cases s m).2 hne).1
          have h2 : (sendMessage s m).2.2 = some (s.id + 1) :=
            ((sendMessage_id_cases s m).2 hne).2
          have hseq : (sendSeq s (m :: rest)).2 =
              (s.id + 1) :: (sendSeq (sendMessage s m).1 rest).2 := by
            simp [sendSeq, h2]
          rw [hseq]
          rw [List.chain'_cons']
          refine ⟨?_, ih (sendMessage s m).1⟩
          intro y hy
          have hmem : y ∈ (sendSeq (sendMessage s m).1 rest).2 :=
            List.mem_of_mem_head? hy
          have := (sendSeq_id_bounds rest (sendMessage s m).1).2 y hmem
          omega

/-- A connected sample client used to instantiate theorems on concrete
inputs. -/
def sampleConnected : SpreedState :=
  { id := 0, server := some .opened, defunct := false,
    monitor := .pending, deferredCloseTask := .absent, reconnectTask := .absent,
    closeTask := .absent, transcriptSender := .pending,
    resumeid := some "R1", sessionid := some "S1",
    targets := ["h1"], ncSidMap := [("nc1", "h1")], waitStash := [],
    transcriptQueue := [], transcribers := [("spk1", "en")],
    peerConnections := [], langId := "en", roomToken := "room1" }

/-- A defunct sample client (as left behind by `close`). -/
def sampleDefunct : SpreedState :=
  { sampleConnected with
    defunct := true, server := none,
    monitor := .absent, transcriptSender := .absent, targets := [] }

/-- C9: outbound message ids are strictly monotonic.  Over any sequence of
`send_message` calls the assigned ids strictly increase; one call with an
attached socket assigns `id + 1` and bumps the counter by exactly one; one
call without a socket assigns nothing and leaves the counter alone; and no
call sequence ever decreases (resets) the counter. -/
theorem send_message_monotonic_ids (s : SpreedState) (msgs : List SigOut) :
    List.Chain' (· < ·) (sendSeq s msgs).2 ∧
    (∀ m, s.server ≠ none →
      (sendMessage s m).1.id = s.id + 1 ∧ (sendMessage s m).2.2 = some (s.id + 1)) ∧
    (∀ m, s.server = none →
      sendMessage s m = (s, [], none)) ∧
    s.id ≤ (sendSeq s msgs).1.id ∧
    (∀ i ∈ (sendSeq s msgs).2, s.id < i ∧ i ≤ (sendSeq s msgs).1.id) :=
  ⟨sendSeq_chain_lt msgs s,
   fun m h => (sendMessage_id_cases s m).2 h,
   fun m h => (sendMessage_id_cases s m).1 h,
   (sendSeq_id_bounds msgs s).1,
   (sendSeq_id_bounds msgs s).2⟩

/-- Witness for `send_message_monotonic_ids` on a concrete client and
message sequence. -/
theorem send_message_monotonic_ids_witness :
    List.Chain' (· < ·) (sendSeq sampleConnected [SigOut.incall, SigOut.bye]).2 ∧
    (sendMessage sampleConnected SigOut.bye).1.id = sampleConnected.id + 1 ∧
    (sendMessage sampleDefunct SigOut.bye) = (sampleDefunct, [], none) :=
  ⟨(send_message_monotonic_ids sampleConnected [SigOut.incall, SigOut.bye]).1,
   ((send_message_monotonic_ids sampleConnected []).2.1 SigOut.bye (by decide)).1,
   (send_message_monotonic_ids sampleDefunct []).2.2.1 SigOut.bye (by decide)⟩

/-- C10: `set_language` is atomic on the orchestrator's `lang_id`: when
every per-transcriber `set_language` call succeeds the field is updated;
when any of them raises, a `TranscriptionProviderException` with retcode
500 is raised and `lang_id` keeps its previous value. -/
theorem set_language_atomic (s : SpreedState) (lang : String)
    (outcomes : List (Option String)) :
    ((∀ o ∈ outcomes, o = none) →
      (setLanguage s lang outcomes).2 = none ∧
      (setLanguage s lang outcomes).1.langId = lang) ∧
    ((∃ o ∈ outcomes, o ≠ none) →
      ∃ e, (setLanguage s lang outcomes).2 = some e ∧ e.retcode = 500 ∧
        (setLanguage s lang outcomes).1.langId = s.langId) := by
  constructor
  · intro hall
    have hexcs : outcomes.filterMap id = [] := by
      rw [List.filterMap_eq_nil_iff]
      intro a ha
      exact hall a ha
    simp [setLanguage, hexcs]
  · intro hex
    obtain ⟨o, ho, hne⟩ := hex
    have hexcs : outcomes.filterMap id ≠ [] := by
      intro hnil
      rw [List.filterMap_eq_nil_iff] at hnil
      exact hne (hnil o ho)
    have hlen : 1 ≤ (outcomes.filterMap id).length := by
      cases hfm : outcomes.filterMap id with
      | nil => exact absurd hfm hexcs
      | cons a l => simp
    by_cases hgt : 1 < (outcomes.filterMap id).length
    · refine ⟨⟨"Failed to set language for multiple transcribers: " ++
          (outcomes.filterMap id).headD "", 500⟩, ?_, rfl, ?_⟩
      · simp [setLanguage, hgt]
      · simp [setLanguage, hgt]
    · have hone : (outcomes.filterMap id).length = 1 := by omega
      refine ⟨⟨"Failed to set language for one transcriber: " ++
          (outcomes.filterMap id).headD "", 500⟩, ?_, rfl, ?_⟩
      · simp [setLanguage, hone, hgt]
      · simp [setLanguage, hone, hgt]

/-- Witness for `set_language_atomic`: both a fully-successful and a
failing concrete call. -/
theorem set_language_atomic_witness :
    ((setLanguage sampleConnected "fr" [none]).2 = none ∧
      (setLanguage sampleConnected "fr" [none]).1.langId = "fr") ∧
    (∃ e, (setLanguage sampleConnected "fr" [some "boom"]).2 = some e ∧
      e.retcode = 500 ∧
      (setLanguage sampleConnected "fr" [some "boom"]).1.langId =
        sampleConnected.langId) :=
  ⟨(set_language_atomic sampleConnected "fr" [none]).1 (by decide),
   (set_language_atomic sampleConnected "fr" [some "boom"]).2
     ⟨some "boom", by decide, by decide⟩⟩

/-- C1: a Defunct client stays silent.  From any state with the defunct
event set, `close` is a no-op, a transcript-consumer iteration emits
nothing and dequeues nothing, offer handling returns before any signaling,
and a full-reconnect `connect` run (the reconnect path reachable on a
defunct client, per `connect`'s FULL_RECONNECT branch) puts no frame on
the wire and leaves the client defunct. -/
theorem defunct_ops_silent (s : SpreedState) (h : s.defunct = true) :
    closeOp s = (s, []) ∧
    transcriptConsumerStep s = (s, []) ∧
    (∀ msg lines, handleOffer s msg lines = (s, [])) ∧
    (∀ env fuel, (connect s .fullReconnect env fuel).2.2 = [] ∧
      (connect s .fullReconnect env fuel).1.defunct = true) := by
  refine ⟨by simp [closeOp, h], by simp [transcriptConsumerStep, h], ?_, ?_⟩
  · intro msg lines
    simp [handleOffer, h]
  · intro env fuel
    by_cases hcan : env.canConnect
    · cases fuel with
      | zero =>
          constructor <;>
            simp [connect, connectHandshake, closeOp, sendMessage, handshakeLoop,
              h, hcan]
      | succ n =>
          constructor <;>
            simp [connect, connectHandshake, closeOp, sendMessage, handshakeLoop,
              receiveIn, h, hcan]
    · constructor <;> simp [connect, hcan, h]

/-- An environment whose handshake frames are all `welcome`. -/
def sampleEnv : ConnectEnv := { canConnect := true, frames := fun _ => .welcome }

/-- Witness for `defunct_ops_silent` on a concrete defunct client. -/
theorem defunct_ops_silent_witness :
    sampleDefunct.defunct = true ∧
    closeOp sampleDefunct = (sampleDefunct, []) ∧
    transcriptConsumerStep sampleDefunct = (sampleDefunct, []) ∧
    handleOffer sampleDefunct { sender := "p1", sid := "1", sdp := "v=0" }
      ["a=candidate:1 1 udp 1 10.0.0.1 5000 typ host"] = (sampleDefunct, []) ∧
    (connect sampleDefunct .fullReconnect sampleEnv 3).2.2 = [] ∧
    (connect sampleDefunct .fullReconnect sampleEnv 3).1.defunct = true :=
  ⟨rfl,
   (defunct_ops_silent sampleDefunct rfl).1,
   (defunct_ops_silent sampleDefunct rfl).2.1,
   (defunct_ops_silent sampleDefunct rfl).2.2.1
     { sender := "p1", sid := "1", sdp := "v=0" }
     ["a=candidate:1 1 udp 1 10.0.0.1 5000 typ host"],
   ((defunct_ops_silent sampleDefunct rfl).2.2.2 sampleEnv 3).1,
   ((defunct_ops_silent sampleDefunct rfl).2.2.2 sampleEnv 3).2⟩

/-- C3 (amended): when a deferred-close task is pending and `add_target`
is invoked for a recipient whose HPB mapping is already known, the task is
cancelled and that timer can no longer make the client Defunct, which
stays Connected.  (For a recipient whose mapping is still unknown the
recipient is stashed and the deferred-close task is left running — see the
counterexample.) -/
theorem addTarget_known_mapping_cancels (s : SpreedState) (nc : String)
    (hconn : s.defunct = false)
    (hknown : lookupAssoc s.ncSidMap nc ≠ none) :
    (addTarget s nc).deferredCloseTask = .absent ∧
    (addTarget s nc).defunct = false ∧
    maybeLeaveCallFire (addTarget s nc) = (addTarget s nc, []) := by
  obtain ⟨sid, hsid⟩ := Option.ne_none_iff_exists'.1 hknown
  have habs : (addTarget s nc).deferredCloseTask = .absent := by
    unfold addTarget
    rw [hsid]
    dsimp only
    by_cases hmem : sid ∈ s.targets <;>
      by_cases hd : s.deferredCloseTask = TaskSlot.absent <;>
        simp [hmem, hd]
  have hdef : (addTarget s nc).defunct = false := by
    unfold addTarget
    rw [hsid]
    dsimp only
    by_cases hmem : sid ∈ s.targets <;>
      by_cases hd : s.deferredCloseTask = TaskSlot.absent <;>
        simp [hmem, hd, hconn]
  refine ⟨habs, hdef, ?_⟩
  unfold maybeLeaveCallFire
  rw [if_pos]
  rw [habs]
  simp

/-- Witness for `addTarget_known_mapping_cancels`: a client with a pending
deferred close and a known mapping for the new recipient. -/
theorem addTarget_known_mapping_cancels_witness :
    (addTarget { sampleConnected with
        targets := [], deferredCloseTask := .pending } "nc1").deferredCloseTask =
      TaskSlot.absent ∧
    (addTarget { sampleConnected with
        targets := [], deferredCloseTask := .pending } "nc1").defunct = false ∧
    maybeLeaveCallFire (addTarget { sampleConnected with
        targets := [], deferredCloseTask := .pending } "nc1") =
      (addTarget { sampleConnected with
        targets := [], deferredCloseTask := .pending } "nc1", []) :=
  addTarget_known_mapping_cancels
    { sampleConnected with targets := [], deferredCloseTask := .pending }
    "nc1" rfl (by decide)

/-- A Connected client whose recipients just emptied: the deferred-close
task is pending and no HPB mappings are known yet. -/
def pendingCloseState : SpreedState :=
  { sampleConnected with
    targets := [], ncSidMap := [], deferredCloseTask := .pending }

/-- C3 counterexample: `add_target` for a recipient whose HPB mapping is
not yet known stashes the recipient and returns without cancelling the
pending deferred-close task; when that timer fires, the target set is
still empty, so the client closes and becomes Defunct — contradicting the
claim that any new recipient cancels the timer and the orchestrator stays
Connected. -/
theorem addTarget_unknown_mapping_counterexample :
    pendingCloseState.defunct = false ∧
    (addTarget pendingCloseState "nc9").deferredCloseTask = TaskSlot.pending ∧
    (maybeLeaveCallFire (addTarget pendingCloseState "nc9")).1.defunct = true :=
  ⟨rfl, rfl, rfl⟩

theorem handshakeLoop_welcomes_then_error (env : ConnectEnv) (code : String) :
    ∀ (w k counter : Nat) (s : SpreedState), s.server ≠ none →
    (∀ j, j < w → env.frames (k + j) = .welcome) →
    env.frames (k + w) = .error code →
    handshakeLoop env (w + 1) k counter s =
      (s, some (if code = "duplicate_session" then HsExit.failure
        else if code = "room_join_failed" then HsExit.retry
        else HsExit.failure)) := by
  intro w
  induction w with
  | zero =>
      intro k counter s hsrv hW hE
      cases hs : s.server with
      | none => exact absurd hs hsrv
      | some sock =>
          rw [show k + 0 = k from rfl] at hE
          rw [handshakeLoop]
          simp only [receiveIn, hs, hE]
          by_cases h1 : code = "duplicate_session"
          · simp [h1]
          · by_cases h2 : code = "room_join_failed" <;> simp [h1, h2]
  | succ w ih =>
      intro k counter s hsrv hW hE
      cases hs : s.server with
      | none => exact absurd hs hsrv
      | some sock =>
          have h0 : env.frames k = .welcome := by
            have := hW 0 (Nat.succ_pos w)
            simpa using this
          have hW' : ∀ j, j < w → env.frames (k + 1 + j) = .welcome := by
            intro j hj
            have := hW (j + 1) (by omega)
            rw [show k + (j + 1) = k + 1 + j by omega] at this
            exact this
          have hE' : env.frames (k + 1 + w) = .error code := by
            rw [show k + 1 + w = k + (w + 1) by omega]
            exact hE
          calc handshakeLoop env (w + 1 + 1) k counter s
              = handshakeLoop env (w + 1) (k + 1) counter s := by
                rw [handshakeLoop]
                simp only [receiveIn, hs, h0]
            _ = _ := ih (k + 1) counter s hsrv hW' hE'

/-- C4 (amended): during a handshake the first error frame received
determines the result of `connect`: `duplicate_session` gives terminal
Failure and any unlisted code gives terminal Failure, in both cases with
no reconnect scheduled; `room_join_failed` gives Retry, and a full
reconnect is scheduled only when `connect` was invoked with a reconnect
method other than `NO_RECONNECT` — in a Fresh handshake the reconnect-task
slot is left exactly as it was.  In FULL_RECONNECT mode the handshake
never reads a frame at all: the preceding `close` clears the socket
reference, so `connect` returns Failure, the only frames possibly sent
being the best-effort `bye` of that close. -/
theorem connect_error_determines_result (s : SpreedState) (env : ConnectEnv)
    (w : Nat) (code : String)
    (hW : ∀ j, j < w → env.frames j = .welcome)
    (hE : env.frames w = .error code)
    (hcan : env.canConnect = true)
    (hsrv : s.server ≠ some .opened) :
    (code = "duplicate_session" →
      (connect s .noReconnect env (w + 1)).2.1 = some .failure ∧
      (connect s .noReconnect env (w + 1)).1.reconnectTask = s.reconnectTask) ∧
    (code = "room_join_failed" →
      (connect s .noReconnect env (w + 1)).2.1 = some .retry ∧
      (connect s .noReconnect env (w + 1)).1.reconnectTask = s.reconnectTask) ∧
    (code ≠ "duplicate_session" → code ≠ "room_join_failed" →
      (connect s .noReconnect env (w + 1)).2.1 = some .failure ∧
      (connect s .noReconnect env (w + 1)).1.reconnectTask = s.reconnectTask) ∧
    (∀ fuel, 0 < fuel →
      (connect s .fullReconnect env fuel).2.1 = some .failure ∧
      ∀ f ∈ (connect s .fullReconnect env fuel).2.2, f.payload = SigOut.bye) := by
  have hne : (sendMessage { s with server := some SockState.opened }
      SigOut.helloAuth).1.server ≠ none := by
    simp [sendMessage]
  have hrt : (sendMessage { s with server := some SockState.opened }
      SigOut.helloAuth).1.reconnectTask = s.reconnectTask := by
    simp [sendMessage]
  have hW0 : ∀ j, j < w → env.frames (0 + j) = SigIn.welcome := by
    intro j hj
    simpa using hW j hj
  have hE0 : env.frames (0 + w) = SigIn.error code := by
    simpa using hE
  have hloop := handshakeLoop_welcomes_then_error env code w 0 0
      (sendMessage { s with server := some SockState.opened } SigOut.helloAuth).1
      hne hW0 hE0
  have hstep : connect s .noReconnect env (w + 1) =
      connectHandshake { s with server := some SockState.opened }
        .noReconnect env (w + 1) [] := by
    rw [connect]
    simp [hsrv, hcan]
  refine ⟨?_, ?_, ?_, ?_⟩
  · intro hc
    subst hc
    simp only [if_pos rfl] at hloop
    rw [hstep, connectHandshake, hloop]
    exact ⟨rfl, hrt⟩
  · intro hc
    subst hc
    rw [if_neg (by decide), if_pos rfl] at hloop
    rw [hstep, connectHandshake, hloop]
    exact ⟨rfl, hrt⟩
  · intro h1 h2
    rw [if_neg h1, if_neg h2] at hloop
    rw [hstep, connectHandshake, hloop]
    exact ⟨rfl, hrt⟩
  · intro fuel hfuel
    cases fuel with
    | zero => exact absurd hfuel (by omega)
    | succ n =>
        cases hdef : s.defunct <;>
          constructor <;>
            simp [connect, connectHandshake, closeOp, sendMessage, handshakeLoop,
              receiveIn, hcan, hdef]

/-- A client before its first connect (no socket attached). -/
def sampleFresh : SpreedState :=
  { sampleConnected with server := none, sessionid := none, resumeid := none }

/-- Handshake environment delivering `error{duplicate_session}` first. -/
def envDup : ConnectEnv :=
  { canConnect := true, frames := fun _ => .error "duplicate_session" }

/-- Witness for `connect_error_determines_result`: a Fresh handshake whose
first frame is `error{duplicate_session}`. -/
theorem connect_error_determines_result_witness :
    (connect sampleFresh .noReconnect envDup 1).2.1 = some .failure ∧
    (connect sampleFresh .noReconnect envDup 1).1.reconnectTask =
      sampleFresh.reconnectTask :=
  (connect_error_determines_result sampleFresh envDup 0 "duplicate_session"
    (fun j hj => absurd hj (Nat.not_lt_zero j)) rfl rfl (by decide)).1 rfl

/-- Handshake environment delivering `error{room_join_failed}` first. -/
def envRoomJoinFailed : ConnectEnv :=
  { canConnect := true, frames := fun _ => .error "room_join_failed" }

/-- C4 counterexample: in a Fresh (`NO_RECONNECT`) handshake,
`error{room_join_failed}` returns Retry but schedules no full reconnect —
the reconnect-task slot stays empty, against the claim that a full
reconnect is scheduled; and invoked in FULL_RECONNECT mode, `connect`
returns Failure without reading the error frame at all. -/
theorem connect_room_join_failed_counterexample :
    (connect sampleFresh .noReconnect envRoomJoinFailed 1).2.1 = some .retry ∧
    (connect sampleFresh .noReconnect envRoomJoinFailed 1).1.reconnectTask =
      TaskSlot.absent ∧
    (connect sampleFresh .fullReconnect envRoomJoinFailed 2).2.1 = some .failure :=
  ⟨rfl, rfl, rfl⟩
